import Mathlib

/-!
Verification of the interview-coach single-page app (src/src/App.tsx).

The app's state lives in React hooks; we embed it as an explicit record
`AppState` and embed each handler as a function from state to state plus a
trace of observable effects (network requests, console logs, alert dialogs,
recognition start/stop).  Asynchronous completion calls are modelled by
passing the call's outcome (`ApiResult`) as an argument, so a handler runs
atomically from invocation to its `finally` block.

`JSON.parse` is a platform builtin; we model the fragment this app can
meet: objects, arrays, strings with the standard escapes, integers,
booleans and null.  Numbers are modelled as integers (the schema the app
requests carries integer scores 0-5).
-/

namespace InterviewApp

/-- The brace characters, named so they can be used in definitions and
pattern guards. -/
def lbrace : Char := Char.ofNat 123

/-- Closing brace character. -/
def rbrace : Char := Char.ofNat 125

/-- JSON values as produced by parsing, with numbers restricted to
integers (the evaluator schema uses integer scores). -/
inductive Json where
  | null : Json
  | bool (b : Bool) : Json
  | num (n : Int) : Json
  | str (s : String) : Json
  | arr (xs : List Json) : Json
  | obj (fields : List (String × Json)) : Json
deriving Repr

/-- Whitespace characters stripped by the JS string trim method
(space, tab, line feed, carriage return, vertical tab, form feed). -/
def isWsChar (c : Char) : Bool :=
  c = ' ' ∨ c = '\t' ∨ c = '\n' ∨ c = '\r' ∨ c = Char.ofNat 11 ∨ c = Char.ofNat 12

/-- Model of the JS string trim method: strip leading and trailing
whitespace. -/
def jsTrim (s : String) : String :=
  String.mk (((s.toList.dropWhile isWsChar).reverse.dropWhile isWsChar).reverse)

/-- Skip JSON whitespace (space, tab, newline, carriage return). -/
def skipWs : List Char → List Char
  | [] => []
  | c :: cs =>
    if c = ' ' ∨ c = '\t' ∨ c = '\n' ∨ c = '\r' then skipWs cs else c :: cs

/-- Value of a hexadecimal digit, if the character is one. -/
def hexVal (c : Char) : Option Nat :=
  if '0' ≤ c ∧ c ≤ '9' then some (c.toNat - 48)
  else if 'a' ≤ c ∧ c ≤ 'f' then some (c.toNat - 87)
  else if 'A' ≤ c ∧ c ≤ 'F' then some (c.toNat - 55)
  else none

/-- Parse the body of a JSON string after the opening quote, handling the
standard escapes; returns the decoded string and the input that follows
the closing quote.  Fueled by the input length. -/
def parseStrAux : Nat → List Char → List Char → Option (String × List Char)
  | 0, _, _ => none
  | _ + 1, [], _ => none
  | fuel + 1, c :: cs, acc =>
    if c = '"' then some (String.mk acc.reverse, cs)
    else if c = '\\' then
      match cs with
      | [] => none
      | e :: cs2 =>
        if e = '"' then parseStrAux fuel cs2 ('"' :: acc)
        else if e = '\\' then parseStrAux fuel cs2 ('\\' :: acc)
        else if e = '/' then parseStrAux fuel cs2 ('/' :: acc)
        else if e = 'b' then parseStrAux fuel cs2 (Char.ofNat 8 :: acc)
        else if e = 'f' then parseStrAux fuel cs2 (Char.ofNat 12 :: acc)
        else if e = 'n' then parseStrAux fuel cs2 ('\n' :: acc)
        else if e = 'r' then parseStrAux fuel cs2 ('\r' :: acc)
        else if e = 't' then parseStrAux fuel cs2 ('\t' :: acc)
        else if e = 'u' then
          match cs2 with
          | h1 :: h2 :: h3 :: h4 :: cs3 =>
            match hexVal h1, hexVal h2, hexVal h3, hexVal h4 with
            | some a, some b, some k, some d =>
              parseStrAux fuel cs3 (Char.ofNat (((a * 16 + b) * 16 + k) * 16 + d) :: acc)
            | _, _, _, _ => none
          | _ => none
        else none
    else parseStrAux fuel cs (c :: acc)

/-- Accumulate a run of decimal digits. -/
def digitsAux : List Char → Nat → Nat × List Char
  | [], acc => (acc, [])
  | c :: cs, acc =>
    if c.isDigit then digitsAux cs (acc * 10 + (c.toNat - 48)) else (acc, c :: cs)

/-- Parse a JSON number (integer form: optional minus sign then digits). -/
def parseNumber : List Char → Option (Json × List Char)
  | [] => none
  | c :: cs =>
    if c = '-' then
      match cs with
      | [] => none
      | d :: _ =>
        if d.isDigit then
          let p := digitsAux cs 0
          some (Json.num (-(Int.ofNat p.1)), p.2)
        else none
    else if c.isDigit then
      let p := digitsAux (c :: cs) 0
      some (Json.num (Int.ofNat p.1), p.2)
    else none

mutual

/-- Parse one JSON value; returns the value and the remaining input. -/
def parseValue : Nat → List Char → Option (Json × List Char)
  | 0, _ => none
  | fuel + 1, cs =>
    match skipWs cs with
    | [] => none
    | c :: rest =>
      if c = '"' then
        match parseStrAux (rest.length + 1) rest [] with
        | some (s, r) => some (Json.str s, r)
        | none => none
      else if c = lbrace then parseObjRest fuel rest []
      else if c = '[' then parseArrRest fuel rest []
      else if c = 't' then
        match rest with
        | 'r' :: 'u' :: 'e' :: r => some (Json.bool true, r)
        | _ => none
      else if c = 'f' then
        match rest with
        | 'a' :: 'l' :: 's' :: 'e' :: r => some (Json.bool false, r)
        | _ => none
      else if c = 'n' then
        match rest with
        | 'u' :: 'l' :: 'l' :: r => some (Json.null, r)
        | _ => none
      else parseNumber (c :: rest)

/-- Parse the members of an object after the opening brace. -/
def parseObjRest : Nat → List Char → List (String × Json) → Option (Json × List Char)
  | 0, _, _ => none
  | fuel + 1, cs, acc =>
    match skipWs cs with
    | [] => none
    | c :: rest =>
      if c = rbrace then
        if acc.isEmpty then some (Json.obj [], rest) else none
      else if c = '"' then
        match parseStrAux (rest.length + 1) rest [] with
        | none => none
        | some (key, afterKey) =>
          match skipWs afterKey with
          | ':' :: afterColon =>
            match parseValue fuel afterColon with
            | none => none
            | some (v, afterVal) =>
              match skipWs afterVal with
              | ',' :: afterComma => parseObjRest fuel afterComma (acc ++ [(key, v)])
              | d :: afterClose =>
                if d = rbrace then some (Json.obj (acc ++ [(key, v)]), afterClose)
                else none
              | [] => none
          | _ => none
      else none

/-- Parse the elements of an array after the opening bracket. -/
def parseArrRest : Nat → List Char → List Json → Option (Json × List Char)
  | 0, _, _ => none
  | fuel + 1, cs, acc =>
    match skipWs cs with
    | [] => none
    | c :: rest =>
      if c = ']' then
        if acc.isEmpty then some (Json.arr [], rest) else none
      else
        match parseValue fuel (c :: rest) with
        | none => none
        | some (v, afterVal) =>
          match skipWs afterVal with
          | ',' :: afterComma => parseArrRest fuel afterComma (acc ++ [v])
          | ']' :: afterClose => some (Json.arr (acc ++ [v]), afterClose)
          | _ => none

end

/-- Model of JSON.parse on a character list: parse one value and require
only whitespace after it. -/
def jsonParseL (cs : List Char) : Option Json :=
  match parseValue (cs.length + 8) cs with
  | some (v, rest) => if skipWs rest = [] then some v else none
  | none => none

/-- Model of JSON.parse on a string. -/
def jsonParse (s : String) : Option Json := jsonParseL s.toList

/-- Suffix of the input starting at its first opening brace
(leftmost start position of the regex match). -/
def fromFirstBrace : List Char → Option (List Char)
  | [] => none
  | c :: cs => if c = lbrace then some (c :: cs) else fromFirstBrace cs

/-- On a reversed input: suffix starting at the first closing brace, i.e.
the original input cut just after its last closing brace. -/
def upToLastRev : List Char → Option (List Char)
  | [] => none
  | c :: cs => if c = rbrace then some (c :: cs) else upToLastRev cs

/-- The substring matched by the greedy JS regex used in extractJSON:
from the first opening brace to the last closing brace after it, or
nothing when no such span exists. -/
def braceMatch (cs : List Char) : Option (List Char) :=
  match fromFirstBrace cs with
  | none => none
  | some suf =>
    match upToLastRev suf.reverse with
    | none => none
    | some revSub => some revSub.reverse

/-- extractJSON on a character list: match the greedy brace span, then
JSON.parse it; null when there is no match or parsing throws (the
source logs the parse error and falls through to return null). -/
def extractJSONL (cs : List Char) : Option Json :=
  match braceMatch cs with
  | none => none
  | some sub => jsonParseL sub

/-- extractJSON from App.tsx: `text.match` with the greedy brace regex,
then `JSON.parse` of the match, returning null on no match or parse
failure. -/
def extractJSON (text : String) : Option Json := extractJSONL text.toList

/-- Observable effects of the handlers: console output, alert dialogs,
the two completion-service requests, and recognition start/stop calls.
An evalRequest records the question and answer texts embedded in the
evaluator prompt. -/
inductive Effect where
  | logError (msg : String) : Effect
  | logWarn (msg : String) : Effect
  | alert (msg : String) : Effect
  | questionRequest : Effect
  | evalRequest (question answer : String) : Effect
  | recognitionStart : Effect
  | recognitionStop : Effect
deriving Repr, DecidableEq

/-- Outcome of an awaited chat-completion call: a thrown error, or a
completion whose first choice's message content may be absent. -/
inductive ApiResult where
  | error : ApiResult
  | ok (content : Option String) : ApiResult
deriving Repr, DecidableEq

/-- The React component state: the five useState hooks plus the
transcript ref (recognitionRef carries no data we track; its start and
stop calls appear as effects). -/
structure AppState where
  isListening : Bool
  transcript : String
  feedbackLoadingStatus : Bool
  questionStatus : Bool
  question : String
  feedback : Option Json
  transcriptRef : String

/-- getQuestion: set the question-loading flag, clear feedback, request a
question; on success set the question when the trimmed content is
non-empty (a falsy result leaves it unchanged); on error log; in the
finally block clear the loading flag. -/
def getQuestion (api : ApiResult) (s : AppState) : AppState × List Effect :=
  let s1 := { s with questionStatus := true, feedback := none }
  match api with
  | ApiResult.error =>
    ({ s1 with questionStatus := false },
      [Effect.questionRequest, Effect.logError "Error generating question:"])
  | ApiResult.ok content =>
    match content.map jsTrim with
    | some g =>
      if g ≠ "" then
        ({ s1 with question := g, questionStatus := false }, [Effect.questionRequest])
      else
        ({ s1 with questionStatus := false }, [Effect.questionRequest])
    | none => ({ s1 with questionStatus := false }, [Effect.questionRequest])

/-- getFeedback: two early-return guards (on the answerText argument and
on the transcript state), then the evaluation request whose prompt embeds
the question and transcript state.  On success the response content is
fed to extractJSON; a parsed object is stored in the feedback state,
otherwise a warning is logged.  A thrown error (network failure, or
calling match on an absent content) is logged and raises an alert.  The
loading flag is set for the duration of the call and cleared in the
finally block, so it is false in every returned state. -/
def getFeedback (answerText : String) (api : ApiResult) (s : AppState) :
    AppState × List Effect :=
  if jsTrim answerText = "" then
    (s, [Effect.logWarn "Empty transcript. Skipping feedback."])
  else if jsTrim s.transcript = "" then
    (s, [Effect.logWarn "Empty transcript. Skipping feedback."])
  else
    match api with
    | ApiResult.error =>
      ({ s with feedbackLoadingStatus := false },
        [Effect.evalRequest s.question s.transcript,
         Effect.logError "Error fetching feedback:",
         Effect.alert "Something went wrong while fetching feedback."])
    | ApiResult.ok none =>
      ({ s with feedbackLoadingStatus := false },
        [Effect.evalRequest s.question s.transcript,
         Effect.logError "Error fetching feedback:",
         Effect.alert "Something went wrong while fetching feedback."])
    | ApiResult.ok (some responseText) =>
      match extractJSON responseText with
      | some parsed =>
        ({ s with feedback := some parsed, feedbackLoadingStatus := false },
          [Effect.evalRequest s.question s.transcript])
      | none =>
        ({ s with feedbackLoadingStatus := false },
          [Effect.evalRequest s.question s.transcript,
           Effect.logWarn "Could not parse JSON from GPT response:"])

/-- recognition.onend: clear the listening flag; when the transcript
state is non-empty after trimming, call getFeedback on the transcript
ref, otherwise log a warning. -/
def recognitionOnEnd (api : ApiResult) (s : AppState) : AppState × List Effect :=
  let s1 := { s with isListening := false }
  if jsTrim s.transcript = "" then
    (s1, [Effect.logWarn "No transcript available."])
  else
    getFeedback s.transcriptRef api s1

/-- recognition.onresult: store the recognized phrase in both the
transcript ref and the transcript state. -/
def recognitionOnResult (result : String) (s : AppState) : AppState :=
  { s with transcriptRef := result, transcript := result }

/-- handleStartListening: set the listening flag, clear the transcript
state (the ref is left untouched), start recognition. -/
def handleStartListening (s : AppState) : AppState × List Effect :=
  ({ s with isListening := true, transcript := "" }, [Effect.recognitionStart])

/-- handleStopListening: clear the listening flag, stop recognition;
when the transcript ref is non-empty after trimming call getFeedback on
it, otherwise alert that no answer was detected. -/
def handleStopListening (api : ApiResult) (s : AppState) : AppState × List Effect :=
  let s1 := { s with isListening := false }
  if jsTrim s.transcriptRef = "" then
    (s1, [Effect.recognitionStop, Effect.alert "No answer detected."])
  else
    let r := getFeedback s.transcriptRef api s1
    (r.1, Effect.recognitionStop :: r.2)

/-- handleReattempt: clear feedback and transcript, then start
listening again. -/
def handleReattempt (s : AppState) : AppState × List Effect :=
  handleStartListening { s with feedback := none, transcript := "" }

/-- The useEffect watching isListening and transcript: when not
listening and the transcript state is non-empty, call getFeedback on
the transcript ref. -/
def transcriptWatcher (api : ApiResult) (s : AppState) : AppState × List Effect :=
  if s.isListening = false ∧ jsTrim s.transcript ≠ "" then
    getFeedback s.transcriptRef api s
  else
    (s, [])

/-- Number of evaluation requests in an effect trace. -/
def countEval (l : List Effect) : Nat :=
  l.countP (fun e => match e with
    | Effect.evalRequest _ _ => true
    | _ => false)

/-- A sample state with a captured answer, used to instantiate theorems
with hypotheses on concrete inputs. -/
def sampleState : AppState :=
  { isListening := true
    transcript := "hello"
    feedbackLoadingStatus := false
    questionStatus := false
    question := "Q1"
    feedback := none
    transcriptRef := "hello" }

theorem fromFirstBrace_append (pre rest : List Char) (h : lbrace ∉ pre) :
    fromFirstBrace (pre ++ lbrace :: rest) = some (lbrace :: rest) := by
  induction pre with
  | nil => simp [fromFirstBrace]
  | cons a as ih =>
    have ha : ¬ a = lbrace := by
      intro e
      exact h (e ▸ List.mem_cons_self a as)
    have htl : lbrace ∉ as := fun hm => h (List.mem_cons_of_mem a hm)
    simp [fromFirstBrace, ha, ih htl]

theorem upToLastRev_append (lead rest : List Char) (h : rbrace ∉ lead) :
    upToLastRev (lead ++ rbrace :: rest) = some (rbrace :: rest) := by
  induction lead with
  | nil => simp [upToLastRev]
  | cons a as ih =>
    have ha : ¬ a = rbrace := by
      intro e
      exact h (e ▸ List.mem_cons_self a as)
    have htl : rbrace ∉ as := fun hm => h (List.mem_cons_of_mem a hm)
    simp [upToLastRev, ha, ih htl]

/-- On a text splitting as pre ++ brace-span ++ post where pre holds no
opening brace and post no closing brace, the greedy regex match is
exactly the brace-span (first opening brace to last closing brace). -/
theorem braceMatch_span (pre mid post : List Char)
    (hpre : lbrace ∉ pre) (hpost : rbrace ∉ post) :
    braceMatch (pre ++ (lbrace :: (mid ++ [rbrace])) ++ post) =
      some (lbrace :: (mid ++ [rbrace])) := by
  have e1 : pre ++ (lbrace :: (mid ++ [rbrace])) ++ post =
      pre ++ lbrace :: (mid ++ [rbrace] ++ post) := by simp
  have e2 : (lbrace :: (mid ++ [rbrace] ++ post)).reverse =
      post.reverse ++ rbrace :: (mid.reverse ++ [lbrace]) := by simp
  have hpostRev : rbrace ∉ post.reverse := by
    intro hm
    exact hpost (List.mem_reverse.mp hm)
  have e3 : (rbrace :: (mid.reverse ++ [lbrace])).reverse =
      lbrace :: (mid ++ [rbrace]) := by simp
  rw [braceMatch, e1, fromFirstBrace_append _ _ hpre]
  dsimp only
  rw [e2, upToLastRev_append _ _ hpostRev]
  dsimp only
  rw [e3]

/-- When both guards pass, getFeedback sends exactly one evaluation
request carrying the question and transcript state, and leaves the
transcript, transcript ref and question unchanged. -/
theorem getFeedback_sends (ans : String) (api : ApiResult) (s : AppState)
    (h1 : ¬ jsTrim ans = "") (h2 : ¬ jsTrim s.transcript = "") :
    Effect.evalRequest s.question s.transcript ∈ (getFeedback ans api s).2 ∧
    (getFeedback ans api s).1.transcript = s.transcript ∧
    (getFeedback ans api s).1.transcriptRef = s.transcriptRef ∧
    (getFeedback ans api s).1.question = s.question ∧
    countEval (getFeedback ans api s).2 = 1 := by
  cases api with
  | error => simp [getFeedback, h1, h2, countEval]
  | ok content =>
    cases content with
    | none => simp [getFeedback, h1, h2, countEval]
    | some t =>
      cases hE : extractJSON t with
      | none => simp [getFeedback, h1, h2, hE, countEval]
      | some v => simp [getFeedback, h1, h2, hE, countEval]

/-- Claim C1: for every answer string that is empty or whitespace-only,
getFeedback returns at its guard with only a console warning: no request
is sent (no evalRequest effect) and the state, in particular the feedback
record and the loading flag, is exactly the state before the call. -/
theorem c1_empty_answer_skips_evaluation (answerText : String) (api : ApiResult)
    (s : AppState) (h : jsTrim answerText = "") :
    getFeedback answerText api s =
      (s, [Effect.logWarn "Empty transcript. Skipping feedback."]) := by
  simp [getFeedback, h]

theorem c1_witness :
    jsTrim "   " = "" ∧
    getFeedback "   " ApiResult.error sampleState =
      (sampleState, [Effect.logWarn "Empty transcript. Skipping feedback."]) :=
  ⟨by decide,
    c1_empty_answer_skips_evaluation "   " ApiResult.error sampleState (by decide)⟩

/-- The example response text of claim C2 (the object written with hex
escapes for its braces). -/
def c2text : String :=
  "Here is the result: \x7b\"correctness\":4,\"completeness\":3,\"feedback\":\"Good answer\"\x7d"

/-- The prose preceding the object in the claim C2 example. -/
def c2pre : List Char := "Here is the result: ".toList

/-- The interior of the object in the claim C2 example. -/
def c2mid : List Char :=
  "\"correctness\":4,\"completeness\":3,\"feedback\":\"Good answer\"".toList

/-- The parsed object of the claim C2 example, fields intact. -/
def c2obj : Json :=
  Json.obj [("correctness", Json.num 4), ("completeness", Json.num 3),
    ("feedback", Json.str "Good answer")]

/-- Claim C2: for a response text containing exactly one brace-delimited
JSON object (no opening brace before it, no closing brace after it, and
the delimited substring parses), extractJSON returns that parsed object,
fields intact. -/
theorem c2_single_object_roundtrip (text : String) (pre mid post : List Char)
    (v : Json)
    (hsplit : text.toList = pre ++ (lbrace :: (mid ++ [rbrace])) ++ post)
    (hpre : lbrace ∉ pre) (hpost : rbrace ∉ post)
    (hparse : jsonParseL (lbrace :: (mid ++ [rbrace])) = some v) :
    extractJSON text = some v := by
  unfold extractJSON extractJSONL
  rw [hsplit, braceMatch_span pre mid post hpre hpost]
  exact hparse

theorem c2_witness : extractJSON c2text = some c2obj :=
  c2_single_object_roundtrip c2text c2pre c2mid [] c2obj (by decide) (by decide)
    (by decide) (by rfl)

/-- Claim C3 counterexample: the text holding the two objects written
(with hex brace escapes) as open-quote a close 1 brace-pair, then
open b 2: its first brace-delimited JSON substring parses to the object
with field a, yet extractJSON returns none, because the greedy regex
spans from the first opening brace to the last closing brace, covering
both objects, and that span is not valid JSON. -/
theorem c3_counterexample :
    extractJSON "\x7b\"a\":1\x7d \x7b\"b\":2\x7d" = none ∧
    jsonParse "\x7b\"a\":1\x7d" = some (Json.obj [("a", Json.num 1)]) :=
  ⟨rfl, rfl⟩

/-- Claim C3 amended: extractJSON selects the span from the first
opening brace to the last closing brace of the text (the greedy regex
match) and parses that span; when the text holds more than one object
the span covers them all and parsing fails, yielding none. -/
theorem c3_amended_greedy_span (text : String) (pre mid post : List Char)
    (hsplit : text.toList = pre ++ (lbrace :: (mid ++ [rbrace])) ++ post)
    (hpre : lbrace ∉ pre) (hpost : rbrace ∉ post) :
    extractJSON text = jsonParseL (lbrace :: (mid ++ [rbrace])) := by
  unfold extractJSON extractJSONL
  rw [hsplit, braceMatch_span pre mid post hpre hpost]

/-- The interior of the greedy span in the two-object text of claim C3:
everything between the first opening brace and the last closing brace. -/
def c3mid : List Char := "\"a\":1\x7d \x7b\"b\":2".toList

theorem c3_witness :
    extractJSON "\x7b\"a\":1\x7d \x7b\"b\":2\x7d" =
      jsonParseL (lbrace :: (c3mid ++ [rbrace])) ∧
    jsonParseL (lbrace :: (c3mid ++ [rbrace])) = none :=
  ⟨c3_amended_greedy_span "\x7b\"a\":1\x7d \x7b\"b\":2\x7d" [] c3mid []
      (by decide) (by decide) (by decide),
    by rfl⟩

/-- Claim C4: a response text with no brace span yields none from
extractJSON; a matched span that fails to parse also yields none; and
when extractJSON yields none, getFeedback only logs a warning, sends
exactly the one request it already made (no retry), and leaves the
feedback state unchanged with the loading flag cleared. -/
theorem c4_unparseable_response_only_logged (text : String) (s : AppState)
    (htr : ¬ jsTrim s.transcript = "") :
    (braceMatch text.toList = none → extractJSON text = none) ∧
    (∀ sub, braceMatch text.toList = some sub → jsonParseL sub = none →
      extractJSON text = none) ∧
    (extractJSON text = none →
      getFeedback s.transcript (ApiResult.ok (some text)) s =
        ({ s with feedbackLoadingStatus := false },
          [Effect.evalRequest s.question s.transcript,
           Effect.logWarn "Could not parse JSON from GPT response:"])) := by
  refine ⟨?_, ?_, ?_⟩
  · intro h
    unfold extractJSON extractJSONL
    rw [h]
  · intro sub h hp
    unfold extractJSON extractJSONL
    rw [h]
    exact hp
  · intro h
    simp [getFeedback, htr, h]

theorem c4_witness :
    extractJSON "no json here" = none ∧
    getFeedback "hello" (ApiResult.ok (some "no json here")) sampleState =
      ({ sampleState with feedbackLoadingStatus := false },
        [Effect.evalRequest "Q1" "hello",
         Effect.logWarn "Could not parse JSON from GPT response:"]) := by
  have h := c4_unparseable_response_only_logged "no json here" sampleState (by decide)
  exact ⟨h.1 rfl, h.2.2 (h.1 rfl)⟩

/-- Claim C5: when a capture session ends, by the automatic end event or
by the manual stop handler, with the transcript state and ref holding the
same captured value, evaluation is triggered (an evalRequest for the
question and transcript is among the effects) exactly when the trimmed
transcript is non-empty; with an empty transcript the manual stop raises
the user-visible no-answer alert while the automatic end only logs, and
in both empty cases the only state change is clearing the listening
flag. -/
theorem c5_capture_end_triggers_iff (s : AppState) (api : ApiResult)
    (heq : s.transcript = s.transcriptRef) :
    (¬ jsTrim s.transcript = "" →
      Effect.evalRequest s.question s.transcript ∈ (recognitionOnEnd api s).2 ∧
      Effect.evalRequest s.question s.transcript ∈ (handleStopListening api s).2) ∧
    (jsTrim s.transcript = "" →
      recognitionOnEnd api s =
        ({ s with isListening := false },
          [Effect.logWarn "No transcript available."]) ∧
      handleStopListening api s =
        ({ s with isListening := false },
          [Effect.recognitionStop, Effect.alert "No answer detected."])) := by
  constructor
  · intro h
    have href : ¬ jsTrim s.transcriptRef = "" := by rw [← heq]; exact h
    have hm :=
      (getFeedback_sends s.transcriptRef api { s with isListening := false } href h).1
    constructor
    · simp only [recognitionOnEnd]
      rw [if_neg h]
      exact hm
    · simp only [handleStopListening]
      rw [if_neg href]
      exact List.mem_cons_of_mem _ hm
  · intro h
    have href : jsTrim s.transcriptRef = "" := heq ▸ h
    constructor
    · simp only [recognitionOnEnd]
      rw [if_pos h]
    · simp only [handleStopListening]
      rw [if_pos href]

theorem c5_witness :
    (¬ jsTrim sampleState.transcript = "" →
      Effect.evalRequest sampleState.question sampleState.transcript ∈
        (recognitionOnEnd ApiResult.error sampleState).2 ∧
      Effect.evalRequest sampleState.question sampleState.transcript ∈
        (handleStopListening ApiResult.error sampleState).2) ∧
    (jsTrim sampleState.transcript = "" →
      recognitionOnEnd ApiResult.error sampleState =
        ({ sampleState with isListening := false },
          [Effect.logWarn "No transcript available."]) ∧
      handleStopListening ApiResult.error sampleState =
        ({ sampleState with isListening := false },
          [Effect.recognitionStop, Effect.alert "No answer detected."])) :=
  c5_capture_end_triggers_iff sampleState ApiResult.error rfl

/-- Claim C6 counterexample: starting capture from a state whose previous
utterance is the word hello leaves the transcript ref holding that
utterance even though the transcript state is cleared; a manual stop in
the new session, before any result event, then reads the stale ref,
branches on it, and so neither raises the no-answer alert nor behaves as
it does when the ref is cleared — a later read observes the previous
utterance. -/
theorem c6_counterexample :
    (handleStartListening sampleState).1.transcriptRef = "hello" ∧
    (handleStartListening sampleState).1.transcript = "" ∧
    (handleStopListening ApiResult.error (handleStartListening sampleState).1).2 =
      [Effect.recognitionStop, Effect.logWarn "Empty transcript. Skipping feedback."] ∧
    (handleStopListening ApiResult.error
        { (handleStartListening sampleState).1 with transcriptRef := "" }).2 =
      [Effect.recognitionStop, Effect.alert "No answer detected."] :=
  ⟨rfl, rfl, rfl, rfl⟩

/-- Claim C6 amended: starting capture clears the transcript state and
sets the listening flag, but leaves the transcript ref unchanged, so a
later read of the ref during the new session can still observe the
previous utterance. -/
theorem c6_amended_clears_state_not_ref (s : AppState) :
    (handleStartListening s).1.transcript = "" ∧
    (handleStartListening s).1.transcriptRef = s.transcriptRef ∧
    (handleStartListening s).1.isListening = true :=
  ⟨rfl, rfl, rfl⟩

/-- Claim C7: reattempt clears the feedback record and the transcript
state and re-enters the listening state, restarting capture. -/
theorem c7_reattempt_clears_and_listens (s : AppState) :
    handleReattempt s =
      ({ s with feedback := none, transcript := "", isListening := true },
        [Effect.recognitionStart]) := rfl

/-- Claim C8: a failed question request is silent — only a console error,
question unchanged, no alert — and the question loading flag ends false
for every outcome; a failed evaluation request logs and additionally
raises the user-visible alert, with the evaluation loading flag cleared. -/
theorem c8_failure_handling (s sE : AppState) (api : ApiResult)
    (htr : ¬ jsTrim sE.transcript = "") :
    getQuestion ApiResult.error s =
      ({ s with feedback := none, questionStatus := false },
        [Effect.questionRequest, Effect.logError "Error generating question:"]) ∧
    (getQuestion api s).1.questionStatus = false ∧
    getFeedback sE.transcript ApiResult.error sE =
      ({ sE with feedbackLoadingStatus := false },
        [Effect.evalRequest sE.question sE.transcript,
         Effect.logError "Error fetching feedback:",
         Effect.alert "Something went wrong while fetching feedback."]) := by
  refine ⟨rfl, ?_, ?_⟩
  · cases api with
    | error => rfl
    | ok content =>
      cases content with
      | none => rfl
      | some c =>
        simp only [getQuestion, Option.map]
        split
        · rfl
        · rfl
  · simp [getFeedback, htr]

theorem c8_witness :
    getQuestion ApiResult.error sampleState =
      ({ sampleState with feedback := none, questionStatus := false },
        [Effect.questionRequest, Effect.logError "Error generating question:"]) ∧
    (getQuestion (ApiResult.ok (some " Q2 ")) sampleState).1.questionStatus = false ∧
    getFeedback "hello" ApiResult.error sampleState =
      ({ sampleState with feedbackLoadingStatus := false },
        [Effect.evalRequest "Q1" "hello",
         Effect.logError "Error fetching feedback:",
         Effect.alert "Something went wrong while fetching feedback."]) :=
  c8_failure_handling sampleState sampleState (ApiResult.ok (some " Q2 ")) (by decide)

theorem countEval_append (a b : List Effect) :
    countEval (a ++ b) = countEval a + countEval b := by
  simp [countEval, List.countP_append]

theorem countEval_stop_cons (l : List Effect) :
    countEval (Effect.recognitionStop :: l) = countEval l := by
  simp [countEval]

/-- The effect trace of the automatic end event followed by the manual
stop handler, from the sample state with captured answer hello. -/
def c9trace : List Effect :=
  (recognitionOnEnd ApiResult.error sampleState).2 ++
    (handleStopListening ApiResult.error
      (recognitionOnEnd ApiResult.error sampleState).1).2

/-- Claim C9 counterexample: firing the automatic end event and then the
manual stop handler with the same non-empty captured transcript produces
two evaluation requests for that transcript — nothing in the code guards
against the double evaluation. -/
theorem c9_counterexample :
    c9trace =
      [Effect.evalRequest "Q1" "hello",
       Effect.logError "Error fetching feedback:",
       Effect.alert "Something went wrong while fetching feedback.",
       Effect.recognitionStop,
       Effect.evalRequest "Q1" "hello",
       Effect.logError "Error fetching feedback:",
       Effect.alert "Something went wrong while fetching feedback."] ∧
    countEval c9trace = 2 :=
  ⟨rfl, rfl⟩

/-- Claim C9 amended: whenever the automatic end event and the manual
stop handler both fire with the same non-empty captured transcript, the
combined trace holds exactly two evaluation requests: the double
evaluation is unguarded. -/
theorem c9_amended_double_eval (s : AppState) (api : ApiResult)
    (heq : s.transcript = s.transcriptRef) (h : ¬ jsTrim s.transcript = "") :
    countEval ((recognitionOnEnd api s).2 ++
      (handleStopListening api (recognitionOnEnd api s).1).2) = 2 := by
  have href : ¬ jsTrim s.transcriptRef = "" := by rw [← heq]; exact h
  have hOnEnd : recognitionOnEnd api s =
      getFeedback s.transcriptRef api { s with isListening := false } := by
    simp only [recognitionOnEnd]
    rw [if_neg h]
  obtain ⟨_, ht1, hr1, _, hc1⟩ :=
    getFeedback_sends s.transcriptRef api { s with isListening := false } href h
  set s2 := (getFeedback s.transcriptRef api { s with isListening := false }).1 with hs2
  have h2t : ¬ jsTrim s2.transcript = "" := by rw [hs2, ht1]; exact h
  have h2r : ¬ jsTrim s2.transcriptRef = "" := by rw [hs2, hr1]; exact href
  obtain ⟨_, _, _, _, hc2⟩ :=
    getFeedback_sends s2.transcriptRef api { s2 with isListening := false } h2r h2t
  have hStop : handleStopListening api s2 =
      ((getFeedback s2.transcriptRef api { s2 with isListening := false }).1,
        Effect.recognitionStop ::
          (getFeedback s2.transcriptRef api { s2 with isListening := false }).2) := by
    simp only [handleStopListening]
    rw [if_neg h2r]
  rw [hOnEnd, ← hs2, hStop, countEval_append, hc1, countEval_stop_cons, hc2]

theorem c9_amended_witness :
    countEval ((recognitionOnEnd ApiResult.error sampleState).2 ++
      (handleStopListening ApiResult.error
        (recognitionOnEnd ApiResult.error sampleState).1).2) = 2 :=
  c9_amended_double_eval sampleState ApiResult.error rfl (by decide)

/-- The state after starting a new capture from the sample state whose
previous utterance was the word hello. -/
def c10s1 : AppState := (handleStartListening sampleState).1

/-- Claim C10 counterexample: after starting a new capture, the
transcript ref still holds the previous utterance while the transcript
state is cleared; a manual stop before any new result then reads the
stale ref and skips the no-answer alert, but getFeedback aborts at its
guard on the cleared transcript state, so no evaluation request is sent
(the claim asserts evaluation is invoked with the previous utterance). -/
theorem c10_counterexample :
    c10s1.transcriptRef = "hello" ∧
    c10s1.transcript = "" ∧
    handleStopListening ApiResult.error c10s1 =
      ({ c10s1 with isListening := false },
        [Effect.recognitionStop,
         Effect.logWarn "Empty transcript. Skipping feedback."]) ∧
    countEval (handleStopListening ApiResult.error c10s1).2 = 0 :=
  ⟨rfl, rfl, rfl, rfl⟩

/-- Claim C10 amended: starting a new capture does not reset the
transcript ref; for a non-empty previous utterance, a manual stop before
any new result reads the stale ref, treats it as a captured answer and
so skips the no-answer notice, but getFeedback's guard on the cleared
transcript state returns early: no evaluation request is sent and the
stop only logs a warning. -/
theorem c10_amended_stale_ref_skips_silently (s : AppState) (api : ApiResult)
    (h : ¬ jsTrim s.transcriptRef = "") :
    (handleStartListening s).1.transcriptRef = s.transcriptRef ∧
    handleStopListening api (handleStartListening s).1 =
      ({ s with transcript := "", isListening := false },
        [Effect.recognitionStop,
         Effect.logWarn "Empty transcript. Skipping feedback."]) := by
  refine ⟨rfl, ?_⟩
  have h0 : jsTrim "" = "" := rfl
  simp [handleStartListening, handleStopListening, getFeedback, h, h0]

theorem c10_amended_witness :
    (handleStartListening sampleState).1.transcriptRef = sampleState.transcriptRef ∧
    handleStopListening ApiResult.error (handleStartListening sampleState).1 =
      ({ sampleState with transcript := "", isListening := false },
        [Effect.recognitionStop,
         Effect.logWarn "Empty transcript. Skipping feedback."]) :=
  c10_amended_stale_ref_skips_silently sampleState ApiResult.error (by decide)

end InterviewApp
